import Mathlib

/-!
Shallow embedding of the MurmurApp backend's social-graph subsystem: the
Prisma-backed row stores (`users`, `follows`, `likes`, `murmurs`,
`notifications`), the model-layer services (`UserService`, `FollowService`,
`LikeService`, `MurmurService`, `NotificationService`) and the Express route
handlers that compose them.  Rows are modelled as Lean structures, a database
snapshot as lists of rows, and every fallible Prisma call as an `Except` or an
`Option`.  Timestamps are `Nat` clock values; the uniqueness constraints named
in the migration SQL (`follows(followerId,followingId)`,
`likes(userId,murmurId)`, `users(username)`, `users(email)`) are modelled as
explicit existence checks that raise the Prisma unique-violation error.
-/

/-- A row of the `users` table.  Counter columns are `Int` because the SQL
type is `INTEGER`, which admits negative values. -/
structure UserRow where
  id : String
  username : String
  email : String
  displayName : String
  password : String
  avatar : Option String
  bio : Option String
  followersCount : Int
  followingCount : Int
  murmursCount : Int
  isActive : Bool
  lastLogin : Option Nat
  createdAt : Nat
  updatedAt : Nat
deriving DecidableEq

/-- A row of the `follows` table. -/
structure FollowRow where
  id : String
  followerId : String
  followingId : String
  createdAt : Nat
deriving DecidableEq

/-- A row of the `likes` table. -/
structure LikeRow where
  id : String
  userId : String
  murmurId : String
  createdAt : Nat
deriving DecidableEq

/-- A row of the `murmurs` table. -/
structure MurmurRow where
  id : String
  userId : String
  content : String
  replyToId : Option String
  likesCount : Int
  repliesCount : Int
  retweetsCount : Int
  isDeleted : Bool
  createdAt : Nat
deriving DecidableEq

/-- The notification `type` column: `'like' | 'follow' | 'reply'`. -/
inductive NotifType where
  | like
  | follow
  | reply
deriving DecidableEq

/-- A row of the `notifications` table. -/
structure NotifRow where
  id : String
  type : NotifType
  userId : String
  actorId : String
  murmurId : Option String
  isRead : Bool
  createdAt : Nat
deriving DecidableEq

/-- A snapshot of the relational store, together with an id generator for
created rows and the current clock value. -/
structure DB where
  users : List UserRow
  follows : List FollowRow
  likes : List LikeRow
  murmurs : List MurmurRow
  notifications : List NotifRow
  nextId : Nat
  now : Nat
deriving DecidableEq

/-- Errors surfaced by the model layer: the explicit self-follow guard in
`FollowService.create`, Prisma's P2002 unique-constraint violation, and
Prisma's P2025 record-not-found on `update`/`delete` of a missing row. -/
inductive ServiceError where
  | selfFollow
  | uniqueViolation
  | recordNotFound
deriving DecidableEq

/-- Fresh primary key for a created row. -/
def freshId (n : Nat) : String := "row" ++ toString n

/-- `prisma.user.findUnique({ where: { id } })`. -/
def prismaUserFindUnique (db : DB) (id : String) : Option UserRow :=
  db.users.find? (fun u => u.id == id)

/-- The `counts` argument of `UserService.updateCounts`: each field is
optional, and a present field is written verbatim into the row (`data: counts`
is a plain Prisma `update`, not an `increment`). -/
structure CountsPatch where
  followersCount : Option Int
  followingCount : Option Int
  murmursCount : Option Int
deriving DecidableEq

/-- Write the present fields of a `CountsPatch` into a user row. -/
def applyCountsPatch (u : UserRow) (c : CountsPatch) : UserRow :=
  { u with
    followersCount := c.followersCount.getD u.followersCount
    followingCount := c.followingCount.getD u.followingCount
    murmursCount := c.murmursCount.getD u.murmursCount }

/-- `UserService.updateCounts`: `prisma.user.update({ where: { id }, data:
counts })`.  Prisma raises P2025 when no row has the id; otherwise the present
fields are SET to the given absolute values. -/
def UserService.updateCounts (db : DB) (id : String) (c : CountsPatch) :
    Except ServiceError DB :=
  if db.users.any (fun u => u.id == id) then
    .ok { db with users := db.users.map (fun u => if u.id == id then applyCountsPatch u c else u) }
  else
    .error .recordNotFound

/-- `FollowService.findByFollowerAndFollowing`: `prisma.follow.findUnique` on
the compound key. -/
def FollowService.findByFollowerAndFollowing (db : DB) (followerId followingId : String) :
    Option FollowRow :=
  db.follows.find? (fun f => f.followerId == followerId && f.followingId == followingId)

/-- `FollowService.create`: throws on self-follow, then
`prisma.follow.create`, whose unique index on `(followerId, followingId)`
rejects a duplicate pair. -/
def FollowService.create (db : DB) (followerId followingId : String) :
    Except ServiceError (FollowRow × DB) :=
  if followerId == followingId then
    .error .selfFollow
  else if db.follows.any (fun f => f.followerId == followerId && f.followingId == followingId) then
    .error .uniqueViolation
  else
    let row : FollowRow := ⟨freshId db.nextId, followerId, followingId, db.now⟩
    .ok (row, { db with follows := db.follows ++ [row], nextId := db.nextId + 1 })

/-- `FollowService.delete`: `prisma.follow.delete` in a try/catch, returning
`false` when the row is absent (P2025) and `true` after a removal. -/
def FollowService.delete (db : DB) (followerId followingId : String) : Bool × DB :=
  if db.follows.any (fun f => f.followerId == followerId && f.followingId == followingId) then
    (true,
      { db with follows :=
          db.follows.filter (fun f => !(f.followerId == followerId && f.followingId == followingId)) })
  else
    (false, db)

/-- JavaScript truthiness of the optional `murmurId` argument: `undefined`
(`none`) and the empty string are falsy, so `...(murmurId && { murmurId })`
spreads nothing for them. -/
def truthyOpt : Option String → Bool
  | none => false
  | some s => s != ""

/-- The `where` clause of the dedup lookup in `NotificationService.create`:
`{ type, userId, actorId, ...(murmurId && { murmurId }) }` — the `murmurId`
condition is present only when the argument is truthy. -/
def notifMatches (t : NotifType) (userId actorId : String) (murmurId : Option String)
    (n : NotifRow) : Bool :=
  n.type == t && n.userId == userId && n.actorId == actorId &&
    (!truthyOpt murmurId || n.murmurId == murmurId)

/-- `NotificationService.create`: returns `null` on a self-action, otherwise
`findFirst` on the dedup key and, when nothing matches, `prisma.notification.create`
(again spreading `murmurId` only when truthy). -/
def NotificationService.create (db : DB) (t : NotifType) (userId actorId : String)
    (murmurId : Option String) : Option NotifRow × DB :=
  if userId == actorId then
    (none, db)
  else
    match db.notifications.find? (notifMatches t userId actorId murmurId) with
    | some existing => (some existing, db)
    | none =>
      let row : NotifRow :=
        ⟨freshId db.nextId, t, userId, actorId,
          (if truthyOpt murmurId then murmurId else none), false, db.now⟩
      (some row, { db with notifications := db.notifications ++ [row], nextId := db.nextId + 1 })

/-- Result of `POST /:userId/follow`: 404, 409, the catch-all 500 branch
(carrying the caught model-layer error), or the success payload's
`followersCount` field. -/
inductive FollowOutcome where
  | notFound
  | alreadyFollowing
  | caught (e : ServiceError)
  | ok (followersCountResp : Int)
deriving DecidableEq

/-- The `POST /:userId/follow` handler: look up the target user, reject an
existing edge with 409, create the edge, run the two `updateCounts` writes
(which SET `followingCount := 1` and `followersCount := 1`), fire the follow
notification, and answer with `targetUser.followersCount + 1`.  A throw
anywhere inside the `try` lands in the catch branch, keeping whatever writes
already happened. -/
def followHandler (db : DB) (currentUserId targetUserId : String) : FollowOutcome × DB :=
  match prismaUserFindUnique db targetUserId with
  | none => (.notFound, db)
  | some targetUser =>
    match FollowService.findByFollowerAndFollowing db currentUserId targetUserId with
    | some _ => (.alreadyFollowing, db)
    | none =>
      match FollowService.create db currentUserId targetUserId with
      | .error e => (.caught e, db)
      | .ok (_, db1) =>
        match UserService.updateCounts db1 currentUserId ⟨none, some 1, none⟩ with
        | .error e => (.caught e, db1)
        | .ok db2 =>
          match UserService.updateCounts db2 targetUserId ⟨some 1, none, none⟩ with
          | .error e => (.caught e, db2)
          | .ok db3 =>
            let db4 := (NotificationService.create db3 .follow targetUserId currentUserId none).2
            (.ok (targetUser.followersCount + 1), db4)

/-- Result of `DELETE /:userId/follow`. -/
inductive UnfollowOutcome where
  | notFound
  | notFollowing
  | caught (e : ServiceError)
  | ok (followersCountResp : Int)
deriving DecidableEq

/-- The `DELETE /:userId/follow` handler: look up the target, reject a missing
edge with 409, delete the edge, run the two `updateCounts` writes (which SET
`followingCount := -1` and `followersCount := -1`), and answer with
`Math.max(0, targetUser.followersCount - 1)`. -/
def unfollowHandler (db : DB) (currentUserId targetUserId : String) : UnfollowOutcome × DB :=
  match prismaUserFindUnique db targetUserId with
  | none => (.notFound, db)
  | some targetUser =>
    match FollowService.findByFollowerAndFollowing db currentUserId targetUserId with
    | none => (.notFollowing, db)
    | some _ =>
      let r := FollowService.delete db currentUserId targetUserId
      match UserService.updateCounts r.2 currentUserId ⟨none, some (-1), none⟩ with
      | .error e => (.caught e, r.2)
      | .ok db2 =>
        match UserService.updateCounts db2 targetUserId ⟨some (-1), none, none⟩ with
        | .error e => (.caught e, db2)
        | .ok db3 => (.ok (max 0 (targetUser.followersCount - 1)), db3)

/-- The stored `followingCount` of a user, read back from the snapshot. -/
def storedFollowingCount (db : DB) (id : String) : Option Int :=
  (prismaUserFindUnique db id).map (fun u => u.followingCount)

/-- The stored `followersCount` of a user, read back from the snapshot. -/
def storedFollowersCount (db : DB) (id : String) : Option Int :=
  (prismaUserFindUnique db id).map (fun u => u.followersCount)

/-- A user row with the given counters and placeholder profile fields, for
concrete scenarios. -/
def mkUser (id : String) (followers following murmurs : Int) : UserRow :=
  ⟨id, id, id ++ "@x", id, "pw", none, none, followers, following, murmurs, true, none, 0, 0⟩

/-- Users `A`, `B1`, `B2`, all counters zero, no edges. -/
def dbC1 : DB := ⟨[mkUser "A" 0 0 0, mkUser "B1" 0 0 0, mkUser "B2" 0 0 0], [], [], [], [], 0, 100⟩

/-- C1: the claim says each successful follow increments `followingCount` on
the follower, so after two successful follows of distinct targets starting
from zero, `followingCount(A)` should be 2.  The code instead passes the
literal `1` to `UserService.updateCounts`, a plain Prisma `update` that SETS
the column, so after both successful calls the stored value is 1, not 2. -/
theorem follow_counter_set_bug :
    (followHandler dbC1 "A" "B1").1 = .ok 1 ∧
    (followHandler (followHandler dbC1 "A" "B1").2 "A" "B2").1 = .ok 1 ∧
    storedFollowingCount (followHandler (followHandler dbC1 "A" "B1").2 "A" "B2").2 "A" = some 1 ∧
    storedFollowingCount (followHandler (followHandler dbC1 "A" "B1").2 "A" "B2").2 "A" ≠ some 2 := by
  decide

/-- C2: `follow(A, A)` always fails with the self-follow error and leaves the
store untouched.  The first conjunct is the model layer, unconditional; the
second is the route handler, on any state where the caller exists and the
store satisfies the no-self-edge invariant that edge creation enforces. -/
theorem follow_self_always_fails (db : DB) (a : String)
    (hu : ∃ u ∈ db.users, u.id = a)
    (hinv : ∀ f ∈ db.follows, f.followerId ≠ f.followingId) :
    FollowService.create db a a = .error .selfFollow ∧
    followHandler db a a = (.caught .selfFollow, db) := by
  have hc : FollowService.create db a a = .error .selfFollow := by
    simp [FollowService.create]
  refine ⟨hc, ?_⟩
  obtain ⟨u0, hmem, hid⟩ := hu
  have hfind : (prismaUserFindUnique db a).isSome := by
    rw [prismaUserFindUnique, List.find?_isSome]
    exact ⟨u0, hmem, by simp [hid]⟩
  have hnone : FollowService.findByFollowerAndFollowing db a a = none := by
    rw [FollowService.findByFollowerAndFollowing, List.find?_eq_none]
    intro f hf hpf
    simp only [Bool.and_eq_true, beq_iff_eq] at hpf
    exact hinv f hf (hpf.1.trans hpf.2.symm)
  unfold followHandler
  rcases hopt : prismaUserFindUnique db a with _ | u
  · rw [hopt] at hfind; simp at hfind
  · rw [hnone, hc]

/-- Single user `A`, empty store. -/
def dbC2 : DB := ⟨[mkUser "A" 0 0 0], [], [], [], [], 0, 0⟩

/-- Witness for C2 at the concrete state `dbC2`. -/
theorem follow_self_always_fails_witness :
    FollowService.create dbC2 "A" "A" = .error .selfFollow ∧
    followHandler dbC2 "A" "A" = (.caught .selfFollow, dbC2) :=
  follow_self_always_fails dbC2 "A" ⟨mkUser "A" 0 0 0, by simp [dbC2], rfl⟩
    (by intro f hf; simp [dbC2] at hf)

/-- `A` follows `B`; `A.followingCount = 3`, `B.followersCount = 5`. -/
def dbC4 : DB := ⟨[mkUser "A" 0 3 0, mkUser "B" 5 0 0], [⟨"f1", "A", "B", 0⟩], [], [], [], 0, 50⟩

/-- C4: the claim says unfollow decrements both counters and floors them at
zero.  The code deletes the edge and answers with the floored
`max 0 (followersCount - 1) = 4`, but `UserService.updateCounts` SETS both
stored counters to the literal `-1`: negative, neither a decrement (3 - 1 = 2
and 5 - 1 = 4 were expected) nor floored at zero. -/
theorem unfollow_counter_set_bug :
    (unfollowHandler dbC4 "A" "B").1 = .ok 4 ∧
    FollowService.findByFollowerAndFollowing (unfollowHandler dbC4 "A" "B").2 "A" "B" = none ∧
    storedFollowingCount (unfollowHandler dbC4 "A" "B").2 "A" = some (-1) ∧
    storedFollowersCount (unfollowHandler dbC4 "A" "B").2 "B" = some (-1) := by
  decide

/-- `LikeService.create`: `prisma.like.create`, whose unique index on
`(userId, murmurId)` rejects a duplicate pair with P2002. -/
def LikeService.create (db : DB) (userId murmurId : String) :
    Except ServiceError (LikeRow × DB) :=
  if db.likes.any (fun l => l.userId == userId && l.murmurId == murmurId) then
    .error .uniqueViolation
  else
    let row : LikeRow := ⟨freshId db.nextId, userId, murmurId, db.now⟩
    .ok (row, { db with likes := db.likes ++ [row], nextId := db.nextId + 1 })

/-- `LikeService.findByUserAndMurmur`: `prisma.like.findUnique` on the
compound key. -/
def LikeService.findByUserAndMurmur (db : DB) (userId murmurId : String) : Option LikeRow :=
  db.likes.find? (fun l => l.userId == userId && l.murmurId == murmurId)

/-- `LikeService.delete`: `prisma.like.delete` in a try/catch, `false` when
the row is absent (P2025), `true` after a removal. -/
def LikeService.delete (db : DB) (userId murmurId : String) : Bool × DB :=
  if db.likes.any (fun l => l.userId == userId && l.murmurId == murmurId) then
    (true,
      { db with likes :=
          db.likes.filter (fun l => !(l.userId == userId && l.murmurId == murmurId)) })
  else
    (false, db)

/-- `LikeService.like` is a bare wrapper around `create`. -/
def LikeService.like (db : DB) (userId murmurId : String) :
    Except ServiceError (LikeRow × DB) :=
  LikeService.create db userId murmurId

/-- `LikeService.unlike` is a bare wrapper around `delete`. -/
def LikeService.unlike (db : DB) (userId murmurId : String) : Bool × DB :=
  LikeService.delete db userId murmurId

/-- `LikeService.isUserLiked`. -/
def LikeService.isUserLiked (db : DB) (userId murmurId : String) : Bool :=
  (LikeService.findByUserAndMurmur db userId murmurId).isSome

/-- `LikeService.getLikeCount`: `prisma.like.count({ where: { murmurId } })`. -/
def LikeService.getLikeCount (db : DB) (murmurId : String) : Nat :=
  (db.likes.filter (fun l => l.murmurId == murmurId)).length

/-- A single like edge `(U, M)` already stored. -/
def dbC3 : DB := ⟨[], [], [⟨"l1", "U", "M", 0⟩], [], [], 1, 10⟩

/-- C3 counterexample: with the edge `(U, M)` present, `like(U, M)` is not a
no-op returning the existing state — it fails with the unique-constraint
violation, because `LikeService.like` calls `prisma.like.create` without any
existence check. -/
theorem like_existing_edge_not_idempotent_cex :
    LikeService.like dbC3 "U" "M" = .error .uniqueViolation := by
  rfl

/-- C3 amended: when a like edge `(U, M)` already exists, `like(U, M)` (and
the underlying `create`) fails with the unique-constraint error instead of
returning the existing state; the route layer avoids this only by checking
`isUserLiked` first and branching to `unlike`. -/
theorem like_existing_edge_errors (db : DB) (u m : String)
    (h : ∃ l ∈ db.likes, l.userId = u ∧ l.murmurId = m) :
    LikeService.like db u m = .error .uniqueViolation ∧
    LikeService.create db u m = .error .uniqueViolation := by
  have hany : db.likes.any (fun l => l.userId == u && l.murmurId == m) = true := by
    rw [List.any_eq_true]
    obtain ⟨l, hl, h1, h2⟩ := h
    exact ⟨l, hl, by simp [h1, h2]⟩
  constructor <;> simp [LikeService.like, LikeService.create, hany]

/-- Witness for the amended C3 at the concrete state `dbC3`. -/
theorem like_existing_edge_errors_witness :
    LikeService.like dbC3 "U" "M" = .error .uniqueViolation ∧
    LikeService.create dbC3 "U" "M" = .error .uniqueViolation :=
  like_existing_edge_errors dbC3 "U" "M" ⟨⟨"l1", "U", "M", 0⟩, by simp [dbC3], rfl, rfl⟩

/-- C9: `unlike` on a pair with no edge returns `false`, leaves the state (so
also the like-edge set and `getLikeCount`) unchanged; on a pair with an edge
it returns `true` and the edge is gone afterwards. -/
theorem unlike_missing_edge_returns_false (db : DB) (u m : String) :
    ((∀ l ∈ db.likes, ¬(l.userId = u ∧ l.murmurId = m)) →
      LikeService.unlike db u m = (false, db) ∧
      LikeService.getLikeCount (LikeService.unlike db u m).2 m = LikeService.getLikeCount db m) ∧
    ((∃ l ∈ db.likes, l.userId = u ∧ l.murmurId = m) →
      (LikeService.unlike db u m).1 = true ∧
      LikeService.isUserLiked (LikeService.unlike db u m).2 u m = false) := by
  constructor
  · intro hnone
    have hany : db.likes.any (fun l => l.userId == u && l.murmurId == m) = false := by
      rw [List.any_eq_false]
      intro l hl
      simp only [Bool.and_eq_true, beq_iff_eq]
      exact fun hc => hnone l hl hc
    have hres : LikeService.unlike db u m = (false, db) := by
      simp [LikeService.unlike, LikeService.delete, hany]
    exact ⟨hres, by rw [hres]⟩
  · intro hsome
    have hany : db.likes.any (fun l => l.userId == u && l.murmurId == m) = true := by
      rw [List.any_eq_true]
      obtain ⟨l, hl, h1, h2⟩ := hsome
      exact ⟨l, hl, by simp [h1, h2]⟩
    have hres : LikeService.unlike db u m =
        (true, { db with likes :=
          db.likes.filter (fun l => !(l.userId == u && l.murmurId == m)) }) := by
      simp [LikeService.unlike, LikeService.delete, hany]
    refine ⟨by rw [hres], ?_⟩
    rw [hres]
    have hfn : (List.find? (fun l => l.userId == u && l.murmurId == m)
        (List.filter (fun l => !(l.userId == u && l.murmurId == m)) db.likes)) = none := by
      rw [List.find?_eq_none]
      intro l hl hcontra
      rw [List.mem_filter] at hl
      rw [hcontra] at hl
      simp at hl
    simp only [LikeService.isUserLiked, LikeService.findByUserAndMurmur, hfn, Option.isSome_none]

/-- A single like edge `(U, M)`, used to exercise both branches of C9. -/
def dbC9 : DB := ⟨[], [], [⟨"l1", "U", "M", 0⟩], [], [], 1, 0⟩

/-- Witness for C9: the missing-edge branch at `(V, M)` and the existing-edge
branch at `(U, M)` on the concrete state `dbC9`. -/
theorem unlike_missing_edge_returns_false_witness :
    (LikeService.unlike dbC9 "V" "M" = (false, dbC9) ∧
      LikeService.getLikeCount (LikeService.unlike dbC9 "V" "M").2 "M" =
        LikeService.getLikeCount dbC9 "M") ∧
    ((LikeService.unlike dbC9 "U" "M").1 = true ∧
      LikeService.isUserLiked (LikeService.unlike dbC9 "U" "M").2 "U" "M" = false) :=
  ⟨(unlike_missing_edge_returns_false dbC9 "V" "M").1 (by decide),
   (unlike_missing_edge_returns_false dbC9 "U" "M").2 ⟨⟨"l1", "U", "M", 0⟩, by decide, rfl, rfl⟩⟩

/-- `orderBy: { key: 'desc' }` as a relation: `a` before `b` when `a`'s key is
at least `b`'s. -/
def descBy (k : α → β) [LE β] (a b : α) : Prop := k b ≤ k a

instance (k : α → β) [LinearOrder β] : DecidableRel (descBy k) := fun a b =>
  inferInstanceAs (Decidable (k b ≤ k a))

instance (k : α → β) [LinearOrder β] : IsTotal α (descBy k) :=
  ⟨fun a b => le_total (k b) (k a)⟩

instance (k : α → β) [LinearOrder β] : IsTrans α (descBy k) :=
  ⟨fun _ _ _ h1 h2 => le_trans h2 h1⟩

/-- Prisma's `take: limit, skip: offset`. -/
def paginate (l : List α) (limit offset : Nat) : List α := (l.drop offset).take limit

theorem mem_of_mem_paginate {l : List α} {x : α} {limit offset : Nat}
    (h : x ∈ paginate l limit offset) : x ∈ l :=
  List.mem_of_mem_drop (List.mem_of_mem_take h)

theorem paginate_eq_self {l : List α} {limit : Nat} (h : l.length ≤ limit) :
    paginate l limit 0 = l := by
  rw [paginate, List.drop_zero]
  exact List.take_of_length_le h

theorem pairwise_paginate {r : α → α → Prop} {l : List α} (h : l.Pairwise r)
    (limit offset : Nat) : (paginate l limit offset).Pairwise r :=
  List.Pairwise.sublist ((List.take_sublist _ _).trans (List.drop_sublist _ _)) h

/-- `MurmurService.findById`: `findFirst` on `{ id, isDeleted: false }`, so a
soft-deleted murmur is reported as absent. -/
def MurmurService.findById (db : DB) (id : String) : Option MurmurRow :=
  db.murmurs.find? (fun m => m.id == id && !m.isDeleted)

/-- The ids a user follows: `prisma.follow.findMany({ where: { followerId },
select: { followingId } })` mapped to the id. -/
def followingIdsOf (db : DB) (userId : String) : List String :=
  (db.follows.filter (fun f => f.followerId == userId)).map (fun f => f.followingId)

/-- The timeline `where` clause: author among the followed ids and not
soft-deleted.  There is no `replyToId` condition. -/
def timelineWhere (ids : List String) (m : MurmurRow) : Bool :=
  ids.contains m.userId && !m.isDeleted

/-- `MurmurService.getTimeline` (src/models/Murmur.ts): murmurs of followed
users, not deleted, newest first, paginated; `totalCount` from the same
`where`.  The caller's own id is NOT in the id list in this version. -/
def MurmurService.getTimeline (db : DB) (userId : String) (limit offset : Nat) :
    List MurmurRow × Nat :=
  let followingIds := followingIdsOf db userId
  let rows := db.murmurs.filter (timelineWhere followingIds)
  (paginate (List.insertionSort (descBy MurmurRow.createdAt) rows) limit offset, rows.length)

/-- The compiled `dist/models/Murmur.js` variant of `getTimeline`, which runs
`followingIds.push(userId)` before querying, so the caller's own murmurs are
included. -/
def MurmurService.getTimelineDist (db : DB) (userId : String) (limit offset : Nat) :
    List MurmurRow × Nat :=
  let followingIds := followingIdsOf db userId ++ [userId]
  let rows := db.murmurs.filter (timelineWhere followingIds)
  (paginate (List.insertionSort (descBy MurmurRow.createdAt) rows) limit offset, rows.length)

/-- `MurmurService.getPublicMurmurs`: `where: { isDeleted: false }` only —
no reply filter and no exclusion parameter in the signature. -/
def MurmurService.getPublicMurmurs (db : DB) (limit offset : Nat) :
    List MurmurRow × Nat :=
  let rows := db.murmurs.filter (fun m => !m.isDeleted)
  (paginate (List.insertionSort (descBy MurmurRow.createdAt) rows) limit offset, rows.length)

/-- `MurmurService.getUserMurmurs`. -/
def MurmurService.getUserMurmurs (db : DB) (userId : String) (limit offset : Nat) :
    List MurmurRow × Nat :=
  let rows := db.murmurs.filter (fun m => m.userId == userId && !m.isDeleted)
  (paginate (List.insertionSort (descBy MurmurRow.createdAt) rows) limit offset, rows.length)

/-- Does the first character list start the second one? -/
def startsWithChars : List Char → List Char → Bool
  | [], _ => true
  | _ :: _, [] => false
  | a :: as, b :: bs => a == b && startsWithChars as bs

/-- Is the first character list a contiguous run of the second? -/
def infixOfChars (needle : List Char) : List Char → Bool
  | [] => needle.isEmpty
  | c :: rest => startsWithChars needle (c :: rest) || infixOfChars needle rest

/-- Prisma's `{ contains: query, mode: 'insensitive' }`. -/
def containsInsensitive (hay needle : String) : Bool :=
  infixOfChars needle.toLower.data hay.toLower.data

/-- `MurmurService.search`: case-insensitive content containment, not
deleted, newest first. -/
def MurmurService.search (db : DB) (q : String) (limit offset : Nat) :
    List MurmurRow × Nat :=
  let rows := db.murmurs.filter (fun m => !m.isDeleted && containsInsensitive m.content q)
  (paginate (List.insertionSort (descBy MurmurRow.createdAt) rows) limit offset, rows.length)

/-- `MurmurService.getTrending`: not deleted, created within the last 24
hours (86 400 000 ms), ordered by `likesCount` descending. -/
def MurmurService.getTrending (db : DB) (limit offset : Nat) :
    List MurmurRow × Nat :=
  let rows := db.murmurs.filter
    (fun m => !m.isDeleted && decide (db.now - 86400000 ≤ m.createdAt))
  (paginate (List.insertionSort (descBy MurmurRow.likesCount) rows) limit offset, rows.length)

/-- The `GET /` public-feed handler.  The route computes `excludeUserId :=
req.user?.id` and passes it as a third argument, but `getPublicMurmurs`
declares only `(limit, offset)`, so in JavaScript the extra argument is
silently dropped and no exclusion happens. -/
def publicFeedHandler (db : DB) (page limit : Nat) (authUserId : Option String) :
    List MurmurRow :=
  match authUserId with
  | _ => (MurmurService.getPublicMurmurs db limit ((page - 1) * limit)).1

theorem mem_followingIdsOf {db : DB} {u x : String} :
    x ∈ followingIdsOf db u ↔ ∃ f ∈ db.follows, f.followerId = u ∧ f.followingId = x := by
  simp only [followingIdsOf, List.mem_map, List.mem_filter, beq_iff_eq]
  constructor
  · rintro ⟨f, ⟨hf, hfu⟩, hfx⟩
    exact ⟨f, hf, hfu, hfx⟩
  · rintro ⟨f, hf, hfu, hfx⟩
    exact ⟨f, ⟨hf, hfu⟩, hfx⟩

theorem timelineWhere_iff {ids : List String} {m : MurmurRow} :
    timelineWhere ids m = true ↔ m.userId ∈ ids ∧ m.isDeleted = false := by
  simp [timelineWhere, List.elem_iff, Bool.not_eq_true']

/-- `A` follows `B`; `B` has authored one non-deleted reply. -/
def replyByB : MurmurRow := ⟨"m2", "B", "hi", some "m1", 0, 0, 0, false, 5⟩

def dbC5 : DB := ⟨[], [⟨"f1", "A", "B", 0⟩], [], [replyByB], [], 0, 10⟩

/-- C5 counterexample: the claim restricts the timeline to ROOT posts
(`replyToId` null), but `getTimeline` has no `replyToId` condition, so a
reply authored by a followed user is returned. -/
theorem timeline_includes_replies_cex :
    (MurmurService.getTimeline dbC5 "A" 10 0).1 = [replyByB] ∧
    replyByB.replyToId = some "m1" := by
  constructor
  · rfl
  · rfl

/-- C5 (amended): `getTimeline` returns exactly the non-deleted posts — root
posts AND replies — authored by users the caller follows, ordered by creation
time descending; the caller's own posts are excluded in the TypeScript path
and included in the compiled `dist` path, which pushes the caller's id into
the author list. -/
theorem timeline_characterization (db : DB) (u : String) (limit offset : Nat) :
    (∀ m ∈ (MurmurService.getTimeline db u limit offset).1,
      m ∈ db.murmurs ∧ m.isDeleted = false ∧
        ∃ f ∈ db.follows, f.followerId = u ∧ f.followingId = m.userId) ∧
    (MurmurService.getTimeline db u limit offset).1.Pairwise
      (fun a b => b.createdAt ≤ a.createdAt) ∧
    ((MurmurService.getTimeline db u limit 0).2 ≤ limit →
      ∀ m, m ∈ (MurmurService.getTimeline db u limit 0).1 ↔
        (m ∈ db.murmurs ∧ m.isDeleted = false ∧
          ∃ f ∈ db.follows, f.followerId = u ∧ f.followingId = m.userId)) ∧
    (∀ m ∈ (MurmurService.getTimelineDist db u limit offset).1,
      m ∈ db.murmurs ∧ m.isDeleted = false ∧
        (m.userId = u ∨ ∃ f ∈ db.follows, f.followerId = u ∧ f.followingId = m.userId)) := by
  simp only [MurmurService.getTimeline, MurmurService.getTimelineDist]
  have hmem : ∀ m : MurmurRow,
      m ∈ db.murmurs.filter (timelineWhere (followingIdsOf db u)) ↔
        (m ∈ db.murmurs ∧ m.isDeleted = false ∧
          ∃ f ∈ db.follows, f.followerId = u ∧ f.followingId = m.userId) := by
    intro m
    rw [List.mem_filter, timelineWhere_iff, mem_followingIdsOf]
    tauto
  refine ⟨?_, ?_, ?_, ?_⟩
  · intro m hm
    have h := mem_of_mem_paginate hm
    rw [List.mem_insertionSort] at h
    exact (hmem m).1 h
  · have hs := List.sorted_insertionSort (r := descBy MurmurRow.createdAt)
      (db.murmurs.filter (timelineWhere (followingIdsOf db u)))
    exact pairwise_paginate hs _ _
  · intro hlen m
    have hlen' : (List.insertionSort (descBy MurmurRow.createdAt)
        (db.murmurs.filter (timelineWhere (followingIdsOf db u)))).length ≤ limit := by
      rw [List.length_insertionSort]
      exact hlen
    rw [paginate_eq_self hlen', List.mem_insertionSort]
    exact hmem m
  · intro m hm
    have h := mem_of_mem_paginate hm
    rw [List.mem_insertionSort, List.mem_filter, timelineWhere_iff, List.mem_append,
      List.mem_singleton, mem_followingIdsOf] at h
    tauto

/-- One non-deleted follow edge and one non-deleted reply, for the C5
witness. -/
def dbC5w : DB :=
  ⟨[], [⟨"f1", "A", "B", 0⟩], [],
    [⟨"m1", "B", "root", none, 0, 0, 0, false, 3⟩, replyByB], [], 0, 10⟩

/-- Witness for the amended C5 at `dbC5w`: the window hypothesis holds with
limit 10, and the characterization puts both of B's posts in A's timeline. -/
theorem timeline_characterization_witness :
    (MurmurService.getTimeline dbC5w "A" 10 0).2 ≤ 10 ∧
    (replyByB ∈ (MurmurService.getTimeline dbC5w "A" 10 0).1 ↔
      (replyByB ∈ dbC5w.murmurs ∧ replyByB.isDeleted = false ∧
        ∃ f ∈ dbC5w.follows, f.followerId = "A" ∧ f.followingId = replyByB.userId)) :=
  ⟨by decide,
   ((timeline_characterization dbC5w "A" 10 0).2.2.1 (by decide)) replyByB⟩

/-- Alice's own root post, to exercise the missing exclusion. -/
def ownPostAlice : MurmurRow := ⟨"mA", "alice", "own", none, 0, 0, 0, false, 7⟩

/-- Bob's reply to Alice's post, to exercise the missing reply filter. -/
def replyByBob : MurmurRow := ⟨"mR", "bob", "re", some "mA", 0, 0, 0, false, 6⟩

def dbC6 : DB := ⟨[], [], [], [ownPostAlice, replyByBob], [], 0, 10⟩

/-- C6 counterexample: with Alice authenticated (so the route passes her id as
the exclusion argument), the public feed still contains her own post, and it
also contains a reply — `getPublicMurmurs` filters only on `isDeleted`. -/
theorem public_feed_no_exclusion_cex :
    ownPostAlice ∈ publicFeedHandler dbC6 1 10 (some "alice") ∧
    ownPostAlice.userId = "alice" ∧
    replyByBob ∈ publicFeedHandler dbC6 1 10 (some "alice") ∧
    replyByBob.replyToId = some "mA" := by
  decide

/-- C6 (amended): the public feed returns ALL non-deleted posts — replies and
the caller's own posts included — newest first; the exclusion argument the
route passes is not part of `getPublicMurmurs`' parameter list, so the result
is independent of the authenticated caller. -/
theorem public_feed_characterization (db : DB) (page limit offset : Nat)
    (e1 e2 : Option String) :
    publicFeedHandler db page limit e1 = publicFeedHandler db page limit e2 ∧
    (∀ m ∈ (MurmurService.getPublicMurmurs db limit offset).1,
      m ∈ db.murmurs ∧ m.isDeleted = false) ∧
    (MurmurService.getPublicMurmurs db limit offset).1.Pairwise
      (fun a b => b.createdAt ≤ a.createdAt) ∧
    ((MurmurService.getPublicMurmurs db limit 0).2 ≤ limit →
      ∀ m, m ∈ (MurmurService.getPublicMurmurs db limit 0).1 ↔
        (m ∈ db.murmurs ∧ m.isDeleted = false)) := by
  simp only [publicFeedHandler, MurmurService.getPublicMurmurs]
  have hmem : ∀ m : MurmurRow,
      m ∈ db.murmurs.filter (fun m => !m.isDeleted) ↔
        (m ∈ db.murmurs ∧ m.isDeleted = false) := by
    intro m
    rw [List.mem_filter, Bool.not_eq_true']
  refine ⟨by trivial, ?_, ?_, ?_⟩
  · intro m hm
    have h := mem_of_mem_paginate hm
    rw [List.mem_insertionSort] at h
    exact (hmem m).1 h
  · have hs := List.sorted_insertionSort (r := descBy MurmurRow.createdAt)
      (db.murmurs.filter (fun m => !m.isDeleted))
    exact pairwise_paginate hs _ _
  · intro hlen m
    have hlen' : (List.insertionSort (descBy MurmurRow.createdAt)
        (db.murmurs.filter (fun m => !m.isDeleted))).length ≤ limit := by
      rw [List.length_insertionSort]
      exact hlen
    rw [paginate_eq_self hlen', List.mem_insertionSort]
    exact hmem m

/-- Witness for the amended C6 at `dbC6`: the window hypothesis holds with
limit 10 and puts Alice's own post in the feed she requests. -/
theorem public_feed_characterization_witness :
    publicFeedHandler dbC6 1 10 (some "alice") = publicFeedHandler dbC6 1 10 none ∧
    (ownPostAlice ∈ (MurmurService.getPublicMurmurs dbC6 10 0).1 ↔
      (ownPostAlice ∈ dbC6.murmurs ∧ ownPostAlice.isDeleted = false)) :=
  ⟨(public_feed_characterization dbC6 1 10 0 (some "alice") none).1,
   ((public_feed_characterization dbC6 1 10 0 (some "alice") none).2.2.2
     (by decide)) ownPostAlice⟩

/-- C8: appending a soft-deleted murmur (with a fresh id) to the store
changes no listing operation — neither the returned items nor the
`totalCount` — and the public `findById` reports it as absent. -/
theorem deleted_murmurs_excluded (db : DB) (m : MurmurRow)
    (hdel : m.isDeleted = true)
    (hfresh : ∀ mp ∈ db.murmurs, mp.id ≠ m.id) :
    MurmurService.findById { db with murmurs := db.murmurs ++ [m] } m.id = none ∧
    (∀ u limit offset,
      MurmurService.getTimeline { db with murmurs := db.murmurs ++ [m] } u limit offset =
        MurmurService.getTimeline db u limit offset) ∧
    (∀ limit offset,
      MurmurService.getPublicMurmurs { db with murmurs := db.murmurs ++ [m] } limit offset =
        MurmurService.getPublicMurmurs db limit offset) ∧
    (∀ u limit offset,
      MurmurService.getUserMurmurs { db with murmurs := db.murmurs ++ [m] } u limit offset =
        MurmurService.getUserMurmurs db u limit offset) ∧
    (∀ q limit offset,
      MurmurService.search { db with murmurs := db.murmurs ++ [m] } q limit offset =
        MurmurService.search db q limit offset) ∧
    (∀ limit offset,
      MurmurService.getTrending { db with murmurs := db.murmurs ++ [m] } limit offset =
        MurmurService.getTrending db limit offset) := by
  have hfilter : ∀ (p : MurmurRow → Bool), p m = false →
      (db.murmurs ++ [m]).filter p = db.murmurs.filter p := by
    intro p hp
    rw [List.filter_append]
    simp [hp]
  refine ⟨?_, ?_, ?_, ?_, ?_, ?_⟩
  · simp only [MurmurService.findById]
    rw [List.find?_eq_none]
    intro x hx hcontra
    simp only [List.mem_append, List.mem_singleton] at hx
    simp only [Bool.and_eq_true, beq_iff_eq, Bool.not_eq_true'] at hcontra
    rcases hx with hx | rfl
    · exact hfresh x hx hcontra.1
    · rw [hdel] at hcontra
      exact absurd hcontra.2 (by simp)
  · intro u limit offset
    have hids : followingIdsOf { db with murmurs := db.murmurs ++ [m] } u =
        followingIdsOf db u := rfl
    simp only [MurmurService.getTimeline]
    rw [hids, hfilter _ (by simp [timelineWhere, hdel])]
  · intro limit offset
    simp only [MurmurService.getPublicMurmurs]
    rw [hfilter _ (by simp [hdel])]
  · intro u limit offset
    simp only [MurmurService.getUserMurmurs]
    rw [hfilter _ (by simp [hdel])]
  · intro q limit offset
    simp only [MurmurService.search]
    rw [hfilter _ (by simp [hdel])]
  · intro limit offset
    simp only [MurmurService.getTrending]
    rw [hfilter _ (by simp [hdel])]

/-- A soft-deleted murmur with an id fresh for `dbC8`. -/
def delRow : MurmurRow := ⟨"mDel", "B", "gone", none, 0, 0, 0, true, 8⟩

def dbC8 : DB :=
  ⟨[], [⟨"f1", "A", "B", 0⟩], [], [⟨"m1", "B", "root", none, 0, 0, 0, false, 3⟩], [], 0, 10⟩

/-- Witness for C8 at `dbC8` with the deleted row `delRow`. -/
theorem deleted_murmurs_excluded_witness :
    MurmurService.findById { dbC8 with murmurs := dbC8.murmurs ++ [delRow] } "mDel" = none ∧
    MurmurService.getTimeline { dbC8 with murmurs := dbC8.murmurs ++ [delRow] } "A" 10 0 =
      MurmurService.getTimeline dbC8 "A" 10 0 :=
  ⟨(deleted_murmurs_excluded dbC8 delRow rfl (by decide)).1,
   (deleted_murmurs_excluded dbC8 delRow rfl (by decide)).2.1 "A" 10 0⟩

theorem notifMatches_truthy {t : NotifType} {r a m : String} (hm : m ≠ "") (n : NotifRow) :
    notifMatches t r a (some m) n =
      (n.type == t && n.userId == r && n.actorId == a && n.murmurId == some m) := by
  have h1 : (m != "") = true := by
    rw [bne_iff_ne]
    exact hm
  simp [notifMatches, truthyOpt, h1]

/-- C7: `notify` returns `null` and stores nothing on a self-action, and two
successive calls with a distinct recipient and a real murmur id, from a state
with no row for the tuple, store exactly one row for the tuple; the second
call returns the row stored by the first and changes nothing. -/
theorem notify_self_suppressed_and_dedup (db : DB) (t : NotifType) (r a m : String)
    (hra : r ≠ a) (hm : m ≠ "")
    (h0 : ∀ n ∈ db.notifications,
      ¬(n.type = t ∧ n.userId = r ∧ n.actorId = a ∧ n.murmurId = some m)) :
    (∀ (s : DB) (tp : NotifType) (x : String) (mm : Option String),
      NotificationService.create s tp x x mm = (none, s)) ∧
    (NotificationService.create
        (NotificationService.create db t r a (some m)).2 t r a (some m)).1 =
      (NotificationService.create db t r a (some m)).1 ∧
    (NotificationService.create
        (NotificationService.create db t r a (some m)).2 t r a (some m)).2 =
      (NotificationService.create db t r a (some m)).2 ∧
    (NotificationService.create db t r a (some m)).2.notifications.countP
      (fun n => n.type == t && n.userId == r && n.actorId == a && n.murmurId == some m) = 1 := by
  have hself : ∀ (s : DB) (tp : NotifType) (x : String) (mm : Option String),
      NotificationService.create s tp x x mm = (none, s) := by
    intro s tp x mm
    simp [NotificationService.create]
  have hbne : (r == a) = false := by
    simp [hra]
  have hfind0 : db.notifications.find? (notifMatches t r a (some m)) = none := by
    rw [List.find?_eq_none]
    intro n hn hcontra
    rw [notifMatches_truthy hm] at hcontra
    simp only [Bool.and_eq_true, beq_iff_eq] at hcontra
    exact h0 n hn ⟨hcontra.1.1.1, hcontra.1.1.2, hcontra.1.2, hcontra.2⟩
  have htr : truthyOpt (some m) = true := by
    show (m != "") = true
    rw [bne_iff_ne]
    exact hm
  have hrow : NotificationService.create db t r a (some m) =
      (some ⟨freshId db.nextId, t, r, a, some m, false, db.now⟩,
        { db with
          notifications :=
            db.notifications ++ [⟨freshId db.nextId, t, r, a, some m, false, db.now⟩],
          nextId := db.nextId + 1 }) := by
    rw [NotificationService.create, hbne]
    simp only [Bool.false_eq_true, if_false, hfind0, htr, if_true]
  have hfind1 :
      (db.notifications ++ [(⟨freshId db.nextId, t, r, a, some m, false, db.now⟩ : NotifRow)]).find?
        (notifMatches t r a (some m)) =
      some ⟨freshId db.nextId, t, r, a, some m, false, db.now⟩ := by
    rw [List.find?_append, hfind0]
    simp [notifMatches, htr]
  have hsecond : NotificationService.create
      (NotificationService.create db t r a (some m)).2 t r a (some m) =
      ((NotificationService.create db t r a (some m)).1,
        (NotificationService.create db t r a (some m)).2) := by
    rw [hrow]
    rw [NotificationService.create, hbne]
    simp only [Bool.false_eq_true, if_false]
    rw [hfind1]
  refine ⟨hself, by rw [hsecond], by rw [hsecond], ?_⟩
  rw [hrow]
  simp only [List.countP_append]
  have hc0 : db.notifications.countP
      (fun n => n.type == t && n.userId == r && n.actorId == a && n.murmurId == some m) = 0 := by
    rw [List.countP_eq_zero]
    intro n hn hcontra
    simp only [Bool.and_eq_true, beq_iff_eq] at hcontra
    exact h0 n hn ⟨hcontra.1.1.1, hcontra.1.1.2, hcontra.1.2, hcontra.2⟩
  rw [hc0]
  simp [List.countP_cons]

/-- The empty store, for the C7 witness. -/
def dbC7 : DB := ⟨[], [], [], [], [], 0, 0⟩

/-- Witness for C7 at the empty store: a self-notify stores nothing, and two
`like` notifies from `A` to `R` about `M` store exactly one row. -/
theorem notify_self_suppressed_and_dedup_witness :
    NotificationService.create dbC7 .like "R" "R" (some "M") = (none, dbC7) ∧
    (NotificationService.create
        (NotificationService.create dbC7 .like "R" "A" (some "M")).2 .like "R" "A" (some "M")).1 =
      (NotificationService.create dbC7 .like "R" "A" (some "M")).1 ∧
    (NotificationService.create dbC7 .like "R" "A" (some "M")).2.notifications.countP
      (fun n => n.type == NotifType.like && n.userId == "R" && n.actorId == "A" &&
        n.murmurId == some "M") = 1 :=
  ⟨(notify_self_suppressed_and_dedup dbC7 .like "R" "A" "M" (by decide) (by decide)
      (by decide)).1 dbC7 .like "R" (some "M"),
   (notify_self_suppressed_and_dedup dbC7 .like "R" "A" "M" (by decide) (by decide)
      (by decide)).2.1,
   (notify_self_suppressed_and_dedup dbC7 .like "R" "A" "M" (by decide) (by decide)
      (by decide)).2.2.2⟩

/-- A JavaScript primitive value as serialized from a Prisma row. -/
inductive JsVal where
  | vStr (s : String)
  | vInt (n : Int)
  | vBool (b : Bool)
  | vNull
deriving DecidableEq

/-- A JavaScript object: ordered key-value pairs. -/
abbrev JsObject := List (String × JsVal)

def optStrVal : Option String → JsVal
  | some s => .vStr s
  | none => .vNull

def optNatVal : Option Nat → JsVal
  | some n => .vInt n
  | none => .vNull

/-- The full `users` row as Prisma returns it: every column, password
included. -/
def userObject (u : UserRow) : JsObject :=
  [("id", .vStr u.id), ("username", .vStr u.username), ("email", .vStr u.email),
   ("displayName", .vStr u.displayName), ("password", .vStr u.password),
   ("avatar", optStrVal u.avatar), ("bio", optStrVal u.bio),
   ("followersCount", .vInt u.followersCount), ("followingCount", .vInt u.followingCount),
   ("murmursCount", .vInt u.murmursCount), ("isActive", .vBool u.isActive),
   ("lastLogin", optNatVal u.lastLogin), ("createdAt", .vInt u.createdAt),
   ("updatedAt", .vInt u.updatedAt)]

/-- `const { password, ...userWithoutPassword } = user`: rest-spread drops
the `password` key and keeps everything else. -/
def omitPassword (o : JsObject) : JsObject :=
  o.filter (fun kv => kv.1 != "password")

/-- Does the object carry the given key? -/
def hasKey (o : JsObject) (k : String) : Bool :=
  o.any (fun kv => kv.1 == k)

/-- The `IUserCreate` DTO. -/
structure IUserCreate where
  username : String
  email : String
  displayName : String
  password : String
  avatar : Option String
  bio : Option String

/-- The `IUserUpdate` DTO: every field optional. -/
structure IUserUpdate where
  username : Option String
  email : Option String
  displayName : Option String
  avatar : Option String
  bio : Option String

/-- `UserService.create`: hash the password (opaque `bcrypt.hash`), insert the
row (schema defaults for counters/flags; unique `username`/`email`), return
the row minus `password`. -/
def UserService.create (hash : String → String) (db : DB) (d : IUserCreate) :
    Except ServiceError (JsObject × DB) :=
  if db.users.any (fun u => u.username == d.username || u.email == d.email) then
    .error .uniqueViolation
  else
    let u : UserRow :=
      ⟨freshId db.nextId, d.username, d.email, d.displayName, hash d.password,
        d.avatar, d.bio, 0, 0, 0, true, none, db.now, db.now⟩
    .ok (omitPassword (userObject u),
      { db with users := db.users ++ [u], nextId := db.nextId + 1 })

/-- `UserService.findById`: `findUnique` then strip `password`. -/
def UserService.findById (db : DB) (id : String) : Option JsObject :=
  (db.users.find? (fun u => u.id == id)).map (fun u => omitPassword (userObject u))

/-- `UserService.findByEmail`. -/
def UserService.findByEmail (db : DB) (email : String) : Option JsObject :=
  (db.users.find? (fun u => u.email == email)).map (fun u => omitPassword (userObject u))

/-- `UserService.findByUsername`. -/
def UserService.findByUsername (db : DB) (username : String) : Option JsObject :=
  (db.users.find? (fun u => u.username == username)).map (fun u => omitPassword (userObject u))

/-- Apply the present fields of an `IUserUpdate` to a row. -/
def applyUserUpdate (u : UserRow) (d : IUserUpdate) : UserRow :=
  { u with
    username := d.username.getD u.username
    email := d.email.getD u.email
    displayName := d.displayName.getD u.displayName
    avatar := (match d.avatar with | some a => some a | none => u.avatar)
    bio := (match d.bio with | some b => some b | none => u.bio) }

/-- `UserService.update`: `prisma.user.update` (P2025 when absent), return
the updated row minus `password`. -/
def UserService.update (db : DB) (id : String) (d : IUserUpdate) :
    Except ServiceError (JsObject × DB) :=
  match db.users.find? (fun u => u.id == id) with
  | none => .error .recordNotFound
  | some u =>
    .ok (omitPassword (userObject (applyUserUpdate u d)),
      { db with users := db.users.map (fun v => if v.id == id then applyUserUpdate v d else v) })

/-- The `select` clause of `UserService.search`: thirteen named columns,
`password` not among them. -/
def userSelectObject (u : UserRow) : JsObject :=
  [("id", .vStr u.id), ("username", .vStr u.username), ("email", .vStr u.email),
   ("displayName", .vStr u.displayName), ("avatar", optStrVal u.avatar),
   ("bio", optStrVal u.bio), ("followersCount", .vInt u.followersCount),
   ("followingCount", .vInt u.followingCount), ("murmursCount", .vInt u.murmursCount),
   ("isActive", .vBool u.isActive), ("lastLogin", optNatVal u.lastLogin),
   ("createdAt", .vInt u.createdAt), ("updatedAt", .vInt u.updatedAt)]

/-- `UserService.search`: username or displayName containment
(case-insensitive), active users only, ordered by `followersCount`
descending, projected through the explicit `select`. -/
def UserService.search (db : DB) (q : String) (limit offset : Nat) : List JsObject :=
  let rows := db.users.filter
    (fun u => (containsInsensitive u.username q || containsInsensitive u.displayName q) && u.isActive)
  (paginate (List.insertionSort (descBy UserRow.followersCount) rows) limit offset).map
    userSelectObject

theorem hasKey_omitPassword (o : JsObject) : hasKey (omitPassword o) "password" = false := by
  rw [hasKey, List.any_eq_false]
  intro kv hkv hcontra
  rw [omitPassword, List.mem_filter] at hkv
  simp [bne, hcontra] at hkv

theorem hasKey_userSelectObject (u : UserRow) :
    hasKey (userSelectObject u) "password" = false := by
  rfl

/-- C10: no user object returned by `create`, `findById`, `findByEmail`,
`findByUsername`, `update` or `search` carries the `password` key, whatever
the stored rows hold — the first five destructure it away, `search` selects
thirteen columns that do not include it. -/
theorem user_objects_never_expose_password (db : DB) (hash : String → String)
    (d : IUserCreate) (du : IUserUpdate) (idv email uname q : String) (limit offset : Nat) :
    (∀ o dbp, UserService.create hash db d = .ok (o, dbp) → hasKey o "password" = false) ∧
    (∀ o, UserService.findById db idv = some o → hasKey o "password" = false) ∧
    (∀ o, UserService.findByEmail db email = some o → hasKey o "password" = false) ∧
    (∀ o, UserService.findByUsername db uname = some o → hasKey o "password" = false) ∧
    (∀ o dbp, UserService.update db idv du = .ok (o, dbp) → hasKey o "password" = false) ∧
    (∀ o ∈ UserService.search db q limit offset, hasKey o "password" = false) := by
  refine ⟨?_, ?_, ?_, ?_, ?_, ?_⟩
  · intro o dbp h
    rw [UserService.create] at h
    cases hany : db.users.any (fun u => u.username == d.username || u.email == d.email) with
    | true => rw [hany] at h; cases h
    | false =>
      rw [hany] at h
      simp only [Bool.false_eq_true, if_false, Except.ok.injEq, Prod.mk.injEq] at h
      rw [← h.1]
      exact hasKey_omitPassword _
  · intro o h
    rw [UserService.findById] at h
    obtain ⟨u, _, ho⟩ := Option.map_eq_some'.mp h
    rw [← ho]
    exact hasKey_omitPassword _
  · intro o h
    rw [UserService.findByEmail] at h
    obtain ⟨u, _, ho⟩ := Option.map_eq_some'.mp h
    rw [← ho]
    exact hasKey_omitPassword _
  · intro o h
    rw [UserService.findByUsername] at h
    obtain ⟨u, _, ho⟩ := Option.map_eq_some'.mp h
    rw [← ho]
    exact hasKey_omitPassword _
  · intro o dbp h
    rw [UserService.update] at h
    cases hfind : db.users.find? (fun u => u.id == idv) with
    | none => rw [hfind] at h; cases h
    | some u =>
      rw [hfind] at h
      simp only [Except.ok.injEq, Prod.mk.injEq] at h
      rw [← h.1]
      exact hasKey_omitPassword _
  · intro o ho
    simp only [UserService.search, List.mem_map] at ho
    obtain ⟨u, _, ho⟩ := ho
    rw [← ho]
    exact hasKey_userSelectObject u

/-- A store holding one user, for the C10 witness. -/
def uC10 : UserRow := mkUser "u1" 0 0 0

def dbC10 : DB := ⟨[uC10], [], [], [], [], 1, 0⟩

/-- The object `findById` returns for `u1`. -/
def objC10 : JsObject := omitPassword (userObject uC10)

/-- Witness for C10: `findById` on the concrete store returns `objC10`, and
the theorem shows it has no `password` key. -/
theorem user_objects_never_expose_password_witness :
    UserService.findById dbC10 "u1" = some objC10 ∧ hasKey objC10 "password" = false :=
  ⟨rfl,
   (user_objects_never_expose_password dbC10 (fun s => s)
      ⟨"x", "xmail", "x", "p", none, none⟩ ⟨none, none, none, none, none⟩
      "u1" "e" "un" "q" 20 0).2.1 objC10 rfl⟩
